import Mathlib

/-!
Shallow embedding of the calendar application in `app.py` (a Flask CRUD app
over a single `events` table), together with proofs about its date utilities
(`parse_date_yyyy_mm_dd`, `daterange`, `normalize_excluded_dates`) and its
four API handlers (`api_create_events`, `api_get_events`, `api_update_event`,
`api_delete_event`).

Python `datetime.date` values are modelled by the subtype `PyDate` of
year/month/day triples that form a real proleptic-Gregorian calendar date
(Python's `date` type cannot hold an invalid date).  The database table is
modelled as an in-memory list of rows plus a `SERIAL` counter.
-/

/-- A year/month/day triple (the raw components of a Python `date`). -/
structure Ymd where
  year : Nat
  month : Nat
  day : Nat
deriving DecidableEq, Repr

/-- Gregorian leap-year rule, as used by Python's `datetime` module. -/
def isLeapYear (y : Nat) : Bool :=
  (y % 4 == 0 && y % 100 != 0) || y % 400 == 0

/-- Number of days in a given month of a given year (0 for out-of-range months). -/
def daysInMonth (y m : Nat) : Nat :=
  match m with
  | 1 => 31
  | 2 => if isLeapYear y then 29 else 28
  | 3 => 31
  | 4 => 30
  | 5 => 31
  | 6 => 30
  | 7 => 31
  | 8 => 31
  | 9 => 30
  | 10 => 31
  | 11 => 30
  | 12 => 31
  | _ => 0

/-- Whether a triple is a calendar date Python's `datetime.date` can hold:
`MINYEAR = 1 <= year <= MAXYEAR = 9999` and a real month/day. -/
def validYmd (p : Ymd) : Bool :=
  1 ≤ p.year && p.year ≤ 9999 && 1 ≤ p.month && p.month ≤ 12 &&
    1 ≤ p.day && p.day ≤ daysInMonth p.year p.month

/-- The model of Python's `datetime.date`: a year/month/day triple that is a
real calendar date (Python's constructor enforces this invariant). -/
def PyDate := { p : Ymd // validYmd p = true }

instance : DecidableEq PyDate := Subtype.instDecidableEq

/-- Python's `<=` on `date` values: lexicographic on (year, month, day). -/
def ymdLe (a b : Ymd) : Bool :=
  a.year < b.year ||
    (a.year == b.year && (a.month < b.month ||
      (a.month == b.month && a.day ≤ b.day)))

/-- Python's `<` on `date` values: strict lexicographic on (year, month, day). -/
def ymdLt (a b : Ymd) : Bool :=
  a.year < b.year ||
    (a.year == b.year && (a.month < b.month ||
      (a.month == b.month && a.day < b.day)))

def dateLe (a b : PyDate) : Bool := ymdLe a.val b.val

def dateLt (a b : PyDate) : Bool := ymdLt a.val b.val

/-- Successor day on raw triples (`date + timedelta(days=1)`). -/
def nextYmd (p : Ymd) : Ymd :=
  if p.day < daysInMonth p.year p.month then ⟨p.year, p.month, p.day + 1⟩
  else if p.month < 12 then ⟨p.year, p.month + 1, 1⟩
  else ⟨p.year + 1, 1, 1⟩

/-- `d + timedelta(days=1)` in Python: `some` of the next day, or `none`
when the addition raises `OverflowError` ("date value out of range"), which
happens exactly at `date.max` = 9999-12-31. -/
def nextDay (d : PyDate) : Option PyDate :=
  if h : validYmd (nextYmd d.val) = true then some ⟨nextYmd d.val, h⟩ else none

/-- `date.max` = 9999-12-31, the largest date Python can represent. -/
def dateMax : PyDate := ⟨⟨9999, 12, 31⟩, by decide⟩

/-- Days occurring before month `m` in year `y` (months `1..m-1`). -/
def daysBeforeMonth (y : Nat) : Nat → Nat
  | 0 => 0
  | m + 1 => daysBeforeMonth y m + daysInMonth y m

/-- Days occurring before year `y`, counted from year 1 (proleptic Gregorian). -/
def daysBeforeYear (y : Nat) : Nat :=
  365 * (y - 1) + (y - 1) / 4 - (y - 1) / 100 + (y - 1) / 400

/-- Python's `date.toordinal`: day 1 is 0001-01-01. -/
def ordinalY (p : Ymd) : Nat :=
  daysBeforeYear p.year + daysBeforeMonth p.year p.month + p.day

def ordinal (d : PyDate) : Nat := ordinalY d.val

/-- The loop of the `daterange` generator with an explicit step bound
(structural fuel); `daterange`/`daterangeRaises` below instantiate the bound
with the exact number of loop iterations, so it never cuts the loop short,
and `daterange_unfold` proves the loop's defining equation.  The result is
the list of yielded days paired with whether the generator raises
`OverflowError`: after each yield the loop runs `cur += timedelta(days=1)`,
which overflows (second component `true`) when the day just yielded was
`date.max`; the exception escapes on the consumer's next `next()` call,
i.e. after every yield has been delivered. -/
def daterangeFuel : Nat → PyDate → PyDate → List PyDate × Bool
  | 0, _, _ => ([], false)
  | n + 1, cur, d2 =>
    if dateLe cur d2 then
      match nextDay cur with
      | some nxt => (cur :: (daterangeFuel n nxt d2).1, (daterangeFuel n nxt d2).2)
      | none => ([cur], true)
    else ([], false)

/-- The days `daterange(d1, d2)` from `app.py` yields: the inclusive list
from `d1` to `d2`, produced by `while cur <= d2: yield cur; cur += one_day`. -/
def daterange (d1 d2 : PyDate) : List PyDate :=
  (daterangeFuel (ordinal d2 + 1 - ordinal d1) d1 d2).1

/-- Whether iterating `daterange(d1, d2)` to the end raises `OverflowError`
(it does so after the final yield, never before it). -/
def daterangeRaises (d1 d2 : PyDate) : Bool :=
  (daterangeFuel (ordinal d2 + 1 - ordinal d1) d1 d2).2

/-- Whitespace characters for Python's `str.strip` / the regex class `\s`
(ASCII range, which is all the application ever feeds it). -/
def isPySpace (c : Char) : Bool :=
  c = ' ' || c = '\t' || c = '\n' || c = '\r' || c = '\x0b' || c = '\x0c'

/-- Python's `str.strip()` on a character list: drop whitespace at both ends. -/
def pyStripL (cs : List Char) : List Char :=
  ((cs.dropWhile isPySpace).reverse.dropWhile isPySpace).reverse

/-- Python's `s.strip()`. -/
def pystrip (s : String) : String := String.mk (pyStripL s.data)

/-- ASCII digit test (the regex class `\d` as the application uses it). -/
def isDigitChar (c : Char) : Bool := '0' ≤ c && c ≤ '9'

/-- Numeric value of a digit character. -/
def digitVal (c : Char) : Nat := c.toNat - 48

/-- The digit character for `n % 10` (how Python renders one decimal digit). -/
def digitCharOf (n : Nat) : Char :=
  match n % 10 with
  | 0 => '0'
  | 1 => '1'
  | 2 => '2'
  | 3 => '3'
  | 4 => '4'
  | 5 => '5'
  | 6 => '6'
  | 7 => '7'
  | 8 => '8'
  | _ => '9'

/-- Two-digit zero-padded rendering (`%02d`). -/
def pad2 (n : Nat) : List Char := [digitCharOf (n / 10), digitCharOf n]

/-- Four-digit zero-padded rendering (`%04d`). -/
def pad4 (n : Nat) : List Char :=
  [digitCharOf (n / 1000), digitCharOf (n / 100), digitCharOf (n / 10), digitCharOf n]

/-- `date.isoformat()` on raw triples: zero-padded `YYYY-MM-DD`. -/
def isoformatYmd (p : Ymd) : String :=
  String.mk (pad4 p.year ++ '-' :: (pad2 p.month ++ '-' :: pad2 p.day))

/-- `date.isoformat()` (Python renders `YYYY-MM-DD`, zero-padded). -/
def isoformat (d : PyDate) : String := isoformatYmd d.val

/-- Full match of `DATE_RE = ^\d{4}-\d{2}-\d{2}$` from `app.py`. -/
def matchesDateRe (s : String) : Bool :=
  match s.data with
  | [y1, y2, y3, y4, h1, m1, m2, h2, d1, d2] =>
    isDigitChar y1 && isDigitChar y2 && isDigitChar y3 && isDigitChar y4 &&
      h1 = '-' && isDigitChar m1 && isDigitChar m2 && h2 = '-' &&
      isDigitChar d1 && isDigitChar d2
  | _ => false

/-- `parse_date_yyyy_mm_dd` from `app.py`: strip the string, require it to
match `DATE_RE`, then let `strptime(..., "%Y-%m-%d")` build a real date —
`strptime` raises (modelled as `none`) unless the components form a valid
calendar date. -/
def parse_date_yyyy_mm_dd (s : String) : Option PyDate :=
  match (pystrip s).data with
  | [y1, y2, y3, y4, h1, m1, m2, h2, d1, d2] =>
    if isDigitChar y1 && isDigitChar y2 && isDigitChar y3 && isDigitChar y4 &&
        h1 = '-' && isDigitChar m1 && isDigitChar m2 && h2 = '-' &&
        isDigitChar d1 && isDigitChar d2 then
      let y := 1000 * digitVal y1 + 100 * digitVal y2 + 10 * digitVal y3 + digitVal y4
      let m := 10 * digitVal m1 + digitVal m2
      let dd := 10 * digitVal d1 + digitVal d2
      if h : validYmd ⟨y, m, dd⟩ = true then some ⟨⟨y, m, dd⟩, h⟩ else none
    else none
  | _ => none

/-- Separator class of `re.split(r"[,\s]+", ...)` in `normalize_excluded_dates`. -/
def isSepChar (c : Char) : Bool := c = ',' || isPySpace c

/-- Helper for `tokenize`: `acc` holds the reversed characters of the token
currently being read. -/
def tokenizeAux : List Char → List Char → List (List Char)
  | acc, [] => if acc = [] then [] else [acc.reverse]
  | acc, c :: rest =>
    if isSepChar c then
      if acc = [] then tokenizeAux [] rest else acc.reverse :: tokenizeAux [] rest
    else tokenizeAux (c :: acc) rest

/-- Split a character list on runs of separators, dropping empty tokens
(models `re.split(r"[,\s]+", s)` followed by skipping falsy entries). -/
def tokenize (cs : List Char) : List (List Char) := tokenizeAux [] cs

/-- `normalize_excluded_dates` from `app.py`: split the (already stripped)
input on commas/whitespace and keep the tokens matching `DATE_RE`.  The
Python code builds a `set`; membership is all that is ever used of it, so a
list with `contains` is an equivalent model. -/
def normalize_excluded_dates (s : String) : List String :=
  if s.data = [] then []
  else ((tokenize (pystrip s).data).map String.mk).filter matchesDateRe

/-- One row of the `events` table (the columns `api_create_events` writes and
the handlers read; `created_at` is never read by any handler and is omitted).
`start_col`/`end_col` stand for the quoted `"start"`/`"end"` text columns. -/
structure EventRow where
  id : Nat
  start_col : String
  end_col : String
  event_date : Option PyDate
  group_id : String
  business : Option String
  course : Option String
  time : Option String
  people : Option String
  place : Option String
  admin : Option String
  excluded_dates : Option String
deriving DecidableEq

/-- The `events` table: its rows plus the `SERIAL` id counter. -/
structure Store where
  rows : List EventRow
  nextId : Nat
deriving DecidableEq

/-- The JSON body of `POST /api/events` (key aliases such as
`start_date`/`startDate` are collapsed into the one field the handler
resolves them to; a JSON `null` or missing key is `none`). -/
structure CreateRequest where
  start : Option String
  end_s : Option String
  business : Option String
  course : Option String
  time : Option String
  people : Option String
  place : Option String
  admin : Option String
  excluded_dates : Option String
  group_id : Option String
deriving DecidableEq

/-- `(data.get(k) or "").strip()` — a missing key and an empty string both
collapse to `""` before stripping. -/
def getStr (o : Option String) : String := pystrip (o.getD "")

/-- The stored form of a descriptive field: `v.strip()` if nonempty after
stripping, else SQL `NULL` (`business if business else None` in the source). -/
def normField (o : Option String) : Option String :=
  let v := getStr o
  if v = "" then none else some v

/-- Outcome of `POST /api/events`: HTTP 400 with a message, HTTP 500 when
the try-block raises (the `except` branch rolls the inserts back and returns
`str(e)`), or HTTP 200 with the created rows and the group id. -/
inductive CreateResult where
  | badRequest (msg : String)
  | serverError (msg : String)
  | ok (created : List EventRow) (group_id : String)
deriving DecidableEq

/-- The row the create loop INSERTs for day `d` (descriptive fields already
stripped; empty strings become `NULL`). -/
def mkEventRow (nid : Nat) (gid business course time_s people place admin excluded_raw : String)
    (d : PyDate) : EventRow :=
  { id := nid
    start_col := isoformat d
    end_col := isoformat d
    event_date := some d
    group_id := gid
    business := if business = "" then none else some business
    course := if course = "" then none else some course
    time := if time_s = "" then none else some time_s
    people := if people = "" then none else some people
    place := if place = "" then none else some place
    admin := if admin = "" then none else some admin
    excluded_dates := if excluded_raw = "" then none else some excluded_raw }

/-- The body of the create loop: for each day of the range, skip it when its
ISO form is in the excluded set, otherwise INSERT a row (consuming one
`SERIAL` id). -/
def insertLoop (gid business course time_s people place admin excluded_raw : String)
    (excluded : List String) : Nat → List PyDate → List EventRow
  | _, [] => []
  | nid, d :: rest =>
    if excluded.contains (isoformat d) then
      insertLoop gid business course time_s people place admin excluded_raw excluded nid rest
    else
      mkEventRow nid gid business course time_s people place admin excluded_raw d ::
        insertLoop gid business course time_s people place admin excluded_raw excluded
          (nid + 1) rest

/-- `POST /api/events` (`api_create_events` in `app.py`).  `uuid` is the
value `uuid.uuid4()` would produce, passed in since it is the handler's only
nondeterministic input.  When the day iterator overflows past `date.max`
(range ending 9999-12-31), the exception surfaces after the final insert and
the `except` branch rolls everything back and answers HTTP 500. -/
def api_create_events (uuid : String) (st : Store) (req : CreateRequest) :
    Store × CreateResult :=
  let start_s := getStr req.start
  let end_s := getStr req.end_s
  match parse_date_yyyy_mm_dd start_s, parse_date_yyyy_mm_dd end_s with
  | some sdt, some edt =>
    if dateLt edt sdt then
      (st, CreateResult.badRequest "종료일은 시작일보다 빠를 수 없습니다.")
    else
      let business := getStr req.business
      let course := getStr req.course
      let time_s := getStr req.time
      let people := getStr req.people
      let place := getStr req.place
      let admin := getStr req.admin
      let excluded_raw := getStr req.excluded_dates
      let excluded := normalize_excluded_dates excluded_raw
      let gid :=
        match req.group_id with
        | some g => if g = "" then uuid else g
        | none => uuid
      let created := insertLoop gid business course time_s people place admin excluded_raw
        excluded st.nextId (daterange sdt edt)
      if daterangeRaises sdt edt then
        -- the generator's OverflowError escapes after the last insert; the
        -- except-branch rolls back, so the store is unchanged, and answers
        -- 500 with str(e)
        (st, CreateResult.serverError "date value out of range")
      else
        ({ rows := st.rows ++ created, nextId := st.nextId + created.length },
          CreateResult.ok created gid)
  | _, _ =>
    (st, CreateResult.badRequest "시작/종료일은 YYYY-MM-DD 형식으로 입력하세요.")

/-- `ORDER BY event_date, id` (PostgreSQL sorts `NULL` dates last in
ascending order). -/
def rowLe (a b : EventRow) : Bool :=
  match a.event_date, b.event_date with
  | some x, some y => dateLt x y || (decide (x = y) && decide (a.id ≤ b.id))
  | some _, none => true
  | none, some _ => false
  | none, none => decide (a.id ≤ b.id)

/-- `GET /api/events` (`api_get_events` in `app.py`): the only filter the
handler reads is the `business` query argument; there is no date-range
parameter.  Rows come back ordered by `(event_date, id)`. -/
def api_get_events (st : Store) (business_q : String) : List EventRow :=
  let business := pystrip business_q
  if business ≠ "" ∧ business ≠ "전체" then
    (st.rows.filter (fun r => r.business == some business)).mergeSort rowLe
  else
    st.rows.mergeSort rowLe

/-- The JSON body of `PUT /api/events/<id>` (alias `eventDate` collapsed into
`event_date`). -/
structure UpdateRequest where
  start : Option String
  end_s : Option String
  event_date : Option String
  business : Option String
  course : Option String
  time : Option String
  people : Option String
  place : Option String
  admin : Option String
deriving DecidableEq

/-- Outcome of `PUT /api/events/<id>`: 404, 400, or 200 with the updated row. -/
inductive UpdateResult where
  | notFound
  | badRequest (msg : String)
  | ok (event : EventRow)
deriving DecidableEq

/-- The date-resolution block of `api_update_event` (the `if event_date_s:`
/ `start`/`end` branches): an explicit `event_date` wins and sets all three
date columns; otherwise `start` sets the date and the start column and `end`
sets the end column; absent fields keep the old row's values; a malformed
value is a 400 error before any write. -/
def resolveUpdateDates (old : EventRow) (event_date_s start_s end_s : String) :
    Except String (Option PyDate × String × String) :=
  if event_date_s ≠ "" then
    match parse_date_yyyy_mm_dd event_date_s with
    | some dd => Except.ok (some dd, isoformat dd, isoformat dd)
    | none => Except.error "event_date는 YYYY-MM-DD 형식이어야 합니다."
  else
    let s1 : Except String (Option PyDate × String) :=
      if start_s ≠ "" then
        match parse_date_yyyy_mm_dd start_s with
        | some dd => Except.ok (some dd, isoformat dd)
        | none => Except.error "start는 YYYY-MM-DD 형식이어야 합니다."
      else Except.ok (old.event_date, old.start_col)
    match s1 with
    | Except.error e => Except.error e
    | Except.ok (ned, ns) =>
      if end_s ≠ "" then
        match parse_date_yyyy_mm_dd end_s with
        | some dd => Except.ok (ned, ns, isoformat dd)
        | none => Except.error "end는 YYYY-MM-DD 형식이어야 합니다."
      else Except.ok (ned, ns, old.end_col)

/-- `PUT /api/events/<id>` (`api_update_event` in `app.py`): SELECT the row,
404 when absent; resolve the new date columns (`resolveUpdateDates`; a
malformed date is a 400 before any write); then UPDATE, overwriting every
descriptive field from the request. -/
def api_update_event (st : Store) (event_id : Nat) (req : UpdateRequest) :
    Store × UpdateResult :=
  let start_s := getStr req.start
  let end_s := getStr req.end_s
  let event_date_s := getStr req.event_date
  match st.rows.find? (fun r => r.id == event_id) with
  | none => (st, UpdateResult.notFound)
  | some old =>
    match resolveUpdateDates old event_date_s start_s end_s with
    | Except.error e => (st, UpdateResult.badRequest e)
    | Except.ok (ned, ns, ne) =>
      let upd : EventRow → EventRow := fun r =>
        { r with
          start_col := ns
          end_col := ne
          event_date := ned
          business := normField req.business
          course := normField req.course
          time := normField req.time
          people := normField req.people
          place := normField req.place
          admin := normField req.admin }
      ({ st with rows := st.rows.map (fun r => if r.id == event_id then upd r else r) },
        UpdateResult.ok (upd old))

/-- Outcome of `DELETE /api/events/<id>`: the handler runs the DELETE and
answers `{"ok": true}` without inspecting the affected row count; only a
storage exception (never raised by this in-memory model) gives an error. -/
inductive DeleteResult where
  | ok
  | serverError (msg : String)
deriving DecidableEq

/-- `DELETE /api/events/<id>` (`api_delete_event` in `app.py`):
`DELETE FROM events WHERE id = %s` then `{"ok": true}` — there is no
existence check and no 404 path. -/
def api_delete_event (st : Store) (event_id : Nat) : Store × DeleteResult :=
  ({ st with rows := st.rows.filter (fun r => !(r.id == event_id)) }, DeleteResult.ok)

/-- The group id the create handler stores:
`str(data.get("group_id") or data.get("groupId") or uuid.uuid4())`. -/
def reqGroupId (uuid : String) (req : CreateRequest) : String :=
  match req.group_id with
  | some g => if g = "" then uuid else g
  | none => uuid

/-- The rows the create handler INSERTs for a request whose dates parsed to
`sdt` and `edt` (the loop body of `api_create_events`, named so theorems can
talk about it). -/
def createdRows (uuid : String) (st : Store) (req : CreateRequest) (sdt edt : PyDate) :
    List EventRow :=
  insertLoop (reqGroupId uuid req) (getStr req.business) (getStr req.course) (getStr req.time)
    (getStr req.people) (getStr req.place) (getStr req.admin) (getStr req.excluded_dates)
    (normalize_excluded_dates (getStr req.excluded_dates)) st.nextId (daterange sdt edt)

/-! Concrete fixtures used by the witness and counterexample theorems. -/

def jan1 : PyDate := ⟨⟨2026, 1, 1⟩, by decide⟩

def jan5 : PyDate := ⟨⟨2026, 1, 5⟩, by decide⟩

def jan6 : PyDate := ⟨⟨2026, 1, 6⟩, by decide⟩

def jan8 : PyDate := ⟨⟨2026, 1, 8⟩, by decide⟩

def jan9 : PyDate := ⟨⟨2026, 1, 9⟩, by decide⟩

def jan31 : PyDate := ⟨⟨2026, 1, 31⟩, by decide⟩

def may1 : PyDate := ⟨⟨2026, 5, 1⟩, by decide⟩

/-- A create request for the range 2026-01-05..09 excluding 01-07, with a
whitespace-only `course`. -/
def reqJan5Jan9 : CreateRequest :=
  { start := some "2026-01-05", end_s := some "2026-01-09", business := some "지산맞",
    course := some "   ", time := none, people := none, place := none, admin := none,
    excluded_dates := some "2026-01-07", group_id := none }

/-- A create request whose end date precedes its start date. -/
def reqBackwards : CreateRequest :=
  { start := some "2026-01-10", end_s := some "2026-01-08", business := none,
    course := none, time := none, people := none, place := none, admin := none,
    excluded_dates := none, group_id := none }

def emptyStore : Store := { rows := [], nextId := 1 }

def rowJan5 : EventRow :=
  { id := 5, start_col := "2026-01-05", end_col := "2026-01-05", event_date := some jan5,
    group_id := "g", business := some "지산맞", course := none, time := none,
    people := none, place := none, admin := none, excluded_dates := none }

def stDelete : Store := { rows := [rowJan5], nextId := 6 }

def rowMay : EventRow :=
  { id := 7, start_col := "2026-05-01", end_col := "2026-05-01", event_date := some may1,
    group_id := "g2", business := some "행사", course := none, time := none,
    people := none, place := none, admin := none, excluded_dates := none }

def stList : Store := { rows := [rowMay], nextId := 8 }

/-- Two sibling rows produced by one range registration (same `group_id`). -/
def rowSibA : EventRow :=
  { id := 1, start_col := "2026-01-05", end_col := "2026-01-05", event_date := some jan5,
    group_id := "grp", business := some "지산맞", course := some "멀티캠퍼스", time := none,
    people := none, place := none, admin := none, excluded_dates := none }

def rowSibB : EventRow :=
  { id := 2, start_col := "2026-01-06", end_col := "2026-01-06", event_date := some jan6,
    group_id := "grp", business := some "지산맞", course := some "멀티캠퍼스", time := none,
    people := none, place := none, admin := none, excluded_dates := none }

def stUpdate : Store := { rows := [rowSibA, rowSibB], nextId := 3 }

/-- An update request that moves the row to 2026-01-08. -/
def updReqDate : UpdateRequest :=
  { start := none, end_s := none, event_date := some "2026-01-08",
    business := some "행사", course := none, time := none, people := none,
    place := none, admin := none }

/-- The row `updReqDate` turns `rowSibA` into: moved to 2026-01-08, business
replaced, all other descriptive fields cleared (they are absent from the
request), id/group/excluded columns kept. -/
def rowSibAUpdated : EventRow :=
  { id := 1, start_col := "2026-01-08", end_col := "2026-01-08", event_date := some jan8,
    group_id := "grp", business := some "행사", course := none, time := none,
    people := none, place := none, admin := none, excluded_dates := none }

/-- A create request for the single day 9999-12-31 (`date.max`). -/
def req9999 : CreateRequest :=
  { start := some "9999-12-31", end_s := some "9999-12-31", business := none,
    course := none, time := none, people := none, place := none, admin := none,
    excluded_dates := none, group_id := none }

theorem one_le_daysInMonth {y m : Nat} (h1 : 1 ≤ m) (h2 : m ≤ 12) :
    1 ≤ daysInMonth y m := by
  interval_cases m <;> simp [daysInMonth] <;> split <;> omega

theorem daysBeforeMonth_13 (y : Nat) :
    daysBeforeMonth y 13 = if isLeapYear y then 366 else 365 := by
  rcases h : isLeapYear y <;>
    simp [daysBeforeMonth, daysInMonth, h]

theorem isLeapYear_iff (y : Nat) :
    isLeapYear y = true ↔ ((y % 4 = 0 ∧ y % 100 ≠ 0) ∨ y % 400 = 0) := by
  simp [isLeapYear]

set_option maxHeartbeats 1000000 in
theorem daysBeforeYear_succ {y : Nat} (hy : 1 ≤ y) :
    daysBeforeYear (y + 1) = daysBeforeYear y + (if isLeapYear y then 366 else 365) := by
  unfold daysBeforeYear
  rcases h : isLeapYear y with _ | _
  · simp only [h, Bool.false_eq_true, if_false]
    have hn : ¬ ((y % 4 = 0 ∧ y % 100 ≠ 0) ∨ y % 400 = 0) := by
      rw [← isLeapYear_iff]; simp [h]
    rcases Decidable.em (y % 4 = 0) with h4 | h4 <;>
      rcases Decidable.em (y % 100 = 0) with hc | hc <;>
      rcases Decidable.em (y % 400 = 0) with hq | hq <;>
      first
        | (exfalso; exact hn (Or.inr hq))
        | (exfalso; exact hn (Or.inl ⟨h4, hc⟩))
        | omega
  · simp only [h, if_true]
    rcases (isLeapYear_iff y).mp h with ⟨h4, h100⟩ | h400
    · omega
    · omega

theorem ordinalY_nextYmd {p : Ymd} (hp : validYmd p = true) :
    ordinalY (nextYmd p) = ordinalY p + 1 := by
  simp only [validYmd, Bool.and_eq_true, decide_eq_true_eq] at hp
  obtain ⟨⟨⟨⟨⟨hy, hy2⟩, hm1⟩, hm2⟩, hd1⟩, hd2⟩ := hp
  simp only [ordinalY]
  unfold nextYmd
  split
  · show daysBeforeYear p.year + daysBeforeMonth p.year p.month + (p.day + 1) = _
    omega
  · rename_i hdlt
    have hdeq : p.day = daysInMonth p.year p.month := by omega
    split
    · rename_i hm12
      show daysBeforeYear p.year + daysBeforeMonth p.year (p.month + 1) + 1 = _
      rw [show daysBeforeMonth p.year (p.month + 1)
            = daysBeforeMonth p.year p.month + daysInMonth p.year p.month from rfl]
      omega
    · rename_i hm12
      have hmeq : p.month = 12 := by omega
      show daysBeforeYear (p.year + 1) + daysBeforeMonth (p.year + 1) 1 + 1 = _
      rw [daysBeforeYear_succ hy]
      rw [show daysBeforeMonth (p.year + 1) 1 = 0 by simp [daysBeforeMonth, daysInMonth]]
      rw [show (if isLeapYear p.year then 366 else 365) = daysBeforeMonth p.year 13 from
        (daysBeforeMonth_13 p.year).symm]
      rw [hmeq] at hdeq ⊢
      rw [show daysBeforeMonth p.year 13
            = daysBeforeMonth p.year 12 + daysInMonth p.year 12 from rfl]
      simp [daysInMonth] at hdeq ⊢
      omega

theorem ordinal_nextDay {d nxt : PyDate} (h : nextDay d = some nxt) :
    ordinal nxt = ordinal d + 1 := by
  unfold nextDay at h
  split at h
  · rename_i hv
    simp only [Option.some.injEq] at h
    subst h
    exact ordinalY_nextYmd d.property
  · exact absurd h (by simp)

theorem daysBeforeMonth_le_of_le (y : Nat) {m1 m2 : Nat} (h : m1 ≤ m2) :
    daysBeforeMonth y m1 ≤ daysBeforeMonth y m2 := by
  induction m2 with
  | zero => simp_all
  | succ m ih =>
    rcases Nat.lt_or_ge m1 (m + 1) with h' | h'
    · exact le_trans (ih (by omega)) (Nat.le_add_right _ _)
    · have : m1 = m + 1 := by omega
      subst this; exact le_refl _

theorem daysBeforeYear_le_of_le {y1 y2 : Nat} (h1 : 1 ≤ y1) (h : y1 ≤ y2) :
    daysBeforeYear y1 ≤ daysBeforeYear y2 := by
  induction y2 with
  | zero => omega
  | succ y ih =>
    rcases Nat.lt_or_ge y1 (y + 1) with h' | h'
    · have hy1 : 1 ≤ y := by omega
      calc daysBeforeYear y1 ≤ daysBeforeYear y := ih (by omega)
        _ ≤ _ := by rw [daysBeforeYear_succ hy1]; split <;> omega
    · have : y1 = y + 1 := by omega
      subst this; exact le_refl _

theorem ordinalY_lt_of_lex {a b : Ymd} (ha : validYmd a = true) (hb : validYmd b = true)
    (h : ymdLt a b = true) : ordinalY a < ordinalY b := by
  simp only [validYmd, Bool.and_eq_true, decide_eq_true_eq] at ha hb
  obtain ⟨⟨⟨⟨⟨hay, hay2⟩, ham1⟩, ham2⟩, had1⟩, had2⟩ := ha
  obtain ⟨⟨⟨⟨⟨hby, hby2⟩, hbm1⟩, hbm2⟩, hbd1⟩, hbd2⟩ := hb
  simp only [ymdLt, Bool.or_eq_true, Bool.and_eq_true, decide_eq_true_eq, beq_iff_eq] at h
  have key_m : ∀ (y m d : Nat), 1 ≤ d → d ≤ daysInMonth y m →
      daysBeforeMonth y m + d ≤ daysBeforeMonth y (m + 1) := by
    intro y m d _ hd2'
    show daysBeforeMonth y m + d ≤ daysBeforeMonth y m + daysInMonth y m
    omega
  show daysBeforeYear a.year + daysBeforeMonth a.year a.month + a.day <
    daysBeforeYear b.year + daysBeforeMonth b.year b.month + b.day
  rcases h with hy | ⟨hyeq, h⟩
  · -- year strictly smaller
    have h1 : daysBeforeMonth a.year a.month + a.day ≤ daysBeforeMonth a.year 13 := by
      have hk := key_m a.year a.month a.day had1 had2
      have hm := daysBeforeMonth_le_of_le a.year (show a.month + 1 ≤ 13 by omega)
      omega
    have h2 : daysBeforeYear a.year + daysBeforeMonth a.year 13 = daysBeforeYear (a.year + 1) := by
      rw [daysBeforeYear_succ hay, daysBeforeMonth_13]
    have h3 : daysBeforeYear (a.year + 1) ≤ daysBeforeYear b.year :=
      daysBeforeYear_le_of_le (by omega) (by omega)
    omega
  · rcases h with hm | ⟨hmeq, hd⟩
    · -- same year, month strictly smaller
      have h1 := key_m a.year a.month a.day had1 had2
      have h2 : daysBeforeMonth a.year (a.month + 1) ≤ daysBeforeMonth a.year b.month :=
        daysBeforeMonth_le_of_le a.year (by omega)
      rw [hyeq] at h1 h2 ⊢
      omega
    · -- same year, same month, day strictly smaller
      rw [hyeq, hmeq]
      omega

theorem ymd_trichotomy (a b : Ymd) :
    ymdLt a b = true ∨ a = b ∨ ymdLt b a = true := by
  simp only [ymdLt, Bool.or_eq_true, Bool.and_eq_true, decide_eq_true_eq, beq_iff_eq]
  obtain ⟨ay, am, ad⟩ := a
  obtain ⟨by', bm, bd⟩ := b
  simp only [Ymd.mk.injEq]
  omega

theorem dateLt_iff_ordinal_lt (a b : PyDate) :
    dateLt a b = true ↔ ordinal a < ordinal b := by
  constructor
  · intro h
    exact ordinalY_lt_of_lex a.property b.property h
  · intro h
    rcases ymd_trichotomy a.val b.val with h' | h' | h'
    · exact h'
    · exfalso
      have : ordinal a = ordinal b := by unfold ordinal; rw [h']
      omega
    · exfalso
      have := ordinalY_lt_of_lex b.property a.property h'
      unfold ordinal at h
      omega

theorem ymdLe_iff (a b : Ymd) : ymdLe a b = true ↔ (ymdLt a b = true ∨ a = b) := by
  simp only [ymdLe, ymdLt, Bool.or_eq_true, Bool.and_eq_true, decide_eq_true_eq, beq_iff_eq]
  obtain ⟨ay, am, ad⟩ := a
  obtain ⟨by', bm, bd⟩ := b
  simp only [Ymd.mk.injEq]
  omega

theorem dateLe_iff_ordinal_le (a b : PyDate) :
    dateLe a b = true ↔ ordinal a ≤ ordinal b := by
  constructor
  · intro h
    rcases (ymdLe_iff a.val b.val).mp h with h' | h'
    · exact le_of_lt ((dateLt_iff_ordinal_lt a b).mp h')
    · have : a = b := Subtype.ext h'
      subst this; exact le_refl _
  · intro h
    rcases ymd_trichotomy a.val b.val with h' | h' | h'
    · exact (ymdLe_iff a.val b.val).mpr (Or.inl h')
    · exact (ymdLe_iff a.val b.val).mpr (Or.inr h')
    · exfalso
      have := ordinalY_lt_of_lex b.property a.property h'
      unfold ordinal at h
      omega

theorem ordinal_injective {a b : PyDate} (h : ordinal a = ordinal b) : a = b := by
  rcases ymd_trichotomy a.val b.val with h' | h' | h'
  · have := ordinalY_lt_of_lex a.property b.property h'
    unfold ordinal at h; omega
  · exact Subtype.ext h'
  · have := ordinalY_lt_of_lex b.property a.property h'
    unfold ordinal at h; omega

theorem dateLe_dateMax (d : PyDate) : dateLe d dateMax = true := by
  have hv := d.property
  simp only [validYmd, Bool.and_eq_true, decide_eq_true_eq] at hv
  obtain ⟨⟨⟨⟨⟨h1y, h2y⟩, h1m⟩, h2m⟩, h1d⟩, h2d⟩ := hv
  simp only [dateLe, ymdLe, Bool.or_eq_true, Bool.and_eq_true, decide_eq_true_eq,
    beq_iff_eq]
  show d.val.year < 9999 ∨
    (d.val.year = 9999 ∧ (d.val.month < 12 ∨ (d.val.month = 12 ∧ d.val.day ≤ 31)))
  rcases Nat.lt_or_ge d.val.year 9999 with h | h
  · exact Or.inl h
  · have hy : d.val.year = 9999 := by omega
    rcases Nat.lt_or_ge d.val.month 12 with hm | hm
    · exact Or.inr ⟨hy, Or.inl hm⟩
    · have hm12 : d.val.month = 12 := by omega
      refine Or.inr ⟨hy, Or.inr ⟨hm12, ?_⟩⟩
      have hdm : daysInMonth d.val.year d.val.month = 31 := by rw [hm12]; rfl
      omega

theorem nextYmd_valid_of_ne_max {p : Ymd} (hp : validYmd p = true)
    (hne : ¬(p.year = 9999 ∧ p.month = 12 ∧ p.day = 31)) :
    validYmd (nextYmd p) = true := by
  simp only [validYmd, Bool.and_eq_true, decide_eq_true_eq] at hp
  obtain ⟨⟨⟨⟨⟨h1y, h2y⟩, h1m⟩, h2m⟩, h1d⟩, h2d⟩ := hp
  unfold nextYmd
  split
  · simp only [validYmd, Bool.and_eq_true, decide_eq_true_eq]
    exact ⟨⟨⟨⟨⟨h1y, h2y⟩, h1m⟩, h2m⟩, by omega⟩, by omega⟩
  · rename_i hdlt
    split
    · rename_i hm12
      simp only [validYmd, Bool.and_eq_true, decide_eq_true_eq]
      exact ⟨⟨⟨⟨⟨h1y, h2y⟩, by omega⟩, by omega⟩, by omega⟩,
        one_le_daysInMonth (by omega) (by omega)⟩
    · rename_i hm12
      have hm : p.month = 12 := by omega
      have hd31 : p.day = 31 := by
        have hdm : daysInMonth p.year p.month = 31 := by rw [hm]; rfl
        omega
      have hy : p.year ≠ 9999 := fun hy => hne ⟨hy, hm, hd31⟩
      simp only [validYmd, Bool.and_eq_true, decide_eq_true_eq]
      refine ⟨⟨⟨⟨⟨by omega, by omega⟩, by omega⟩, by omega⟩, by omega⟩, ?_⟩
      show 1 ≤ daysInMonth (p.year + 1) 1
      rw [show daysInMonth (p.year + 1) 1 = 31 from rfl]
      omega

theorem nextDay_eq_none_iff (d : PyDate) : nextDay d = none ↔ d = dateMax := by
  constructor
  · intro h
    unfold nextDay at h
    split at h
    · exact absurd h (by simp)
    · rename_i hnv
      by_contra hne
      apply hnv
      apply nextYmd_valid_of_ne_max d.property
      rintro ⟨hy, hm, hd⟩
      apply hne
      apply Subtype.ext
      show d.val = dateMax.val
      rw [show d.val = (⟨d.val.year, d.val.month, d.val.day⟩ : Ymd) from rfl, hy, hm, hd]
      rfl
  · intro h
    subst h
    decide

theorem daterange_unfold (d1 d2 : PyDate) :
    daterange d1 d2
      = if dateLe d1 d2 then
          (match nextDay d1 with
           | some nxt => d1 :: daterange nxt d2
           | none => [d1])
        else [] := by
  by_cases h : dateLe d1 d2 = true
  · have h1 := (dateLe_iff_ordinal_le d1 d2).mp h
    rw [if_pos h]
    rcases hnd : nextDay d1 with _ | nxt
    · have hd1 : d1 = dateMax := (nextDay_eq_none_iff d1).mp hnd
      have h2 : ordinal d2 ≤ ordinal d1 := by
        rw [hd1]
        exact (dateLe_iff_ordinal_le d2 dateMax).mp (dateLe_dateMax d2)
      unfold daterange
      rw [show ordinal d2 + 1 - ordinal d1 = 0 + 1 by omega]
      rw [daterangeFuel, if_pos h, hnd]
    · have h2 := ordinal_nextDay hnd
      unfold daterange
      rw [show ordinal d2 + 1 - ordinal d1 = (ordinal d2 + 1 - ordinal nxt) + 1 by omega]
      rw [daterangeFuel, if_pos h, hnd]
  · have h1 : ¬ ordinal d1 ≤ ordinal d2 := fun hc =>
      h ((dateLe_iff_ordinal_le d1 d2).mpr hc)
    rw [if_neg (by simp [h])]
    unfold daterange
    rw [show ordinal d2 + 1 - ordinal d1 = 0 by omega]
    rw [daterangeFuel]

theorem daterangeRaises_unfold (d1 d2 : PyDate) :
    daterangeRaises d1 d2
      = if dateLe d1 d2 then
          (match nextDay d1 with
           | some nxt => daterangeRaises nxt d2
           | none => true)
        else false := by
  by_cases h : dateLe d1 d2 = true
  · have h1 := (dateLe_iff_ordinal_le d1 d2).mp h
    rw [if_pos h]
    rcases hnd : nextDay d1 with _ | nxt
    · have hd1 : d1 = dateMax := (nextDay_eq_none_iff d1).mp hnd
      have h2 : ordinal d2 ≤ ordinal d1 := by
        rw [hd1]
        exact (dateLe_iff_ordinal_le d2 dateMax).mp (dateLe_dateMax d2)
      unfold daterangeRaises
      rw [show ordinal d2 + 1 - ordinal d1 = 0 + 1 by omega]
      rw [daterangeFuel, if_pos h, hnd]
    · have h2 := ordinal_nextDay hnd
      unfold daterangeRaises
      rw [show ordinal d2 + 1 - ordinal d1 = (ordinal d2 + 1 - ordinal nxt) + 1 by omega]
      rw [daterangeFuel, if_pos h, hnd]
  · have h1 : ¬ ordinal d1 ≤ ordinal d2 := fun hc =>
      h ((dateLe_iff_ordinal_le d1 d2).mpr hc)
    rw [if_neg (by simp [h])]
    unfold daterangeRaises
    rw [show ordinal d2 + 1 - ordinal d1 = 0 by omega]
    rw [daterangeFuel]

theorem daterangeRaises_iff (d1 d2 : PyDate) :
    daterangeRaises d1 d2 = (dateLe d1 d2 && decide (d2 = dateMax)) := by
  rw [daterangeRaises_unfold]
  by_cases hle : dateLe d1 d2 = true
  · rw [if_pos hle]
    rcases hnd : nextDay d1 with _ | nxt
    · show true = (dateLe d1 d2 && decide (d2 = dateMax))
      have hd1 : d1 = dateMax := (nextDay_eq_none_iff d1).mp hnd
      have h1 := (dateLe_iff_ordinal_le d1 d2).mp hle
      have h2 : ordinal d2 ≤ ordinal d1 := by
        rw [hd1]
        exact (dateLe_iff_ordinal_le d2 dateMax).mp (dateLe_dateMax d2)
      have hd2 : d2 = dateMax := by
        rw [← hd1]
        exact ordinal_injective (by omega)
      simp [hle, hd2, dateLe_dateMax]
    · show daterangeRaises nxt d2 = (dateLe d1 d2 && decide (d2 = dateMax))
      have ih := daterangeRaises_iff nxt d2
      rw [ih]
      have hne : d1 ≠ dateMax := by
        intro hd
        have hnone := (nextDay_eq_none_iff d1).mpr hd
        rw [hnone] at hnd
        exact absurd hnd (by simp)
      by_cases hd2 : d2 = dateMax
      · have h1 := (dateLe_iff_ordinal_le d1 dateMax).mp (dateLe_dateMax d1)
        have hlt : ordinal d1 < ordinal dateMax :=
          lt_of_le_of_ne h1 (fun he => hne (ordinal_injective he))
        have hnle : dateLe nxt d2 = true := by
          rw [dateLe_iff_ordinal_le, ordinal_nextDay hnd, hd2]
          omega
        rw [hd2] at hnle ⊢
        simp [hnle, dateLe_dateMax]
      · simp [hd2]
  · rw [if_neg hle]
    have hf : dateLe d1 d2 = false := Bool.eq_false_iff.mpr hle
    simp [hf]
termination_by ordinal d2 + 1 - ordinal d1
decreasing_by
  have h1 := (dateLe_iff_ordinal_le d1 d2).mp hle
  have hx := ordinal_nextDay hnd
  omega

theorem daterangeRaises_eq_false_of_ne {d1 d2 : PyDate} (h : d2 ≠ dateMax) :
    daterangeRaises d1 d2 = false := by
  rw [daterangeRaises_iff]
  simp [h]

theorem daterange_length (d1 d2 : PyDate) :
    (daterange d1 d2).length = ordinal d2 + 1 - ordinal d1 := by
  rw [daterange_unfold]
  by_cases h : dateLe d1 d2 = true
  · rw [if_pos h]
    have h1 := (dateLe_iff_ordinal_le d1 d2).mp h
    rcases hnd : nextDay d1 with _ | nxt
    · have hd1 : d1 = dateMax := (nextDay_eq_none_iff d1).mp hnd
      have h2 : ordinal d2 ≤ ordinal d1 := by
        rw [hd1]
        exact (dateLe_iff_ordinal_le d2 dateMax).mp (dateLe_dateMax d2)
      show ([d1] : List PyDate).length = ordinal d2 + 1 - ordinal d1
      simp only [List.length_cons, List.length_nil]
      omega
    · have h2 := ordinal_nextDay hnd
      have ih := daterange_length nxt d2
      show (d1 :: daterange nxt d2).length = ordinal d2 + 1 - ordinal d1
      simp only [List.length_cons, ih]
      omega
  · rw [if_neg h]
    have h1 : ¬ ordinal d1 ≤ ordinal d2 := fun hc =>
      h ((dateLe_iff_ordinal_le d1 d2).mpr hc)
    simp only [List.length_nil]
    omega
termination_by ordinal d2 + 1 - ordinal d1
decreasing_by
  have h1 := (dateLe_iff_ordinal_le d1 d2).mp h
  have hx := ordinal_nextDay hnd
  omega

theorem dateLt_eq_false_of_le {a b : PyDate} (h : dateLe a b = true) :
    dateLt b a = false := by
  have h1 := (dateLe_iff_ordinal_le a b).mp h
  rcases h2 : dateLt b a with _ | _
  · rfl
  · have := (dateLt_iff_ordinal_lt b a).mp h2
    omega

theorem daterange_spec (d1 d2 : PyDate) (h : dateLe d1 d2 = true) :
    (daterange d1 d2).head? = some d1 ∧ (daterange d1 d2).getLast? = some d2 ∧
      List.Chain' (fun a b => nextDay a = some b) (daterange d1 d2) := by
  rw [daterange_unfold, if_pos h]
  rcases hnd : nextDay d1 with _ | nxt
  · have hd1 : d1 = dateMax := (nextDay_eq_none_iff d1).mp hnd
    have h1 := (dateLe_iff_ordinal_le d1 d2).mp h
    have h2 : ordinal d2 ≤ ordinal d1 := by
      rw [hd1]
      exact (dateLe_iff_ordinal_le d2 dateMax).mp (dateLe_dateMax d2)
    have hd2 : d1 = d2 := ordinal_injective (by omega)
    subst hd2
    exact ⟨rfl, rfl, List.chain'_singleton d1⟩
  · show (d1 :: daterange nxt d2).head? = some d1 ∧
      (d1 :: daterange nxt d2).getLast? = some d2 ∧
      List.Chain' (fun a b => nextDay a = some b) (d1 :: daterange nxt d2)
    by_cases h2 : dateLe nxt d2 = true
    · obtain ⟨ih1, ih2, ih3⟩ := daterange_spec nxt d2 h2
      match hq : daterange nxt d2 with
      | [] => rw [hq] at ih1; exact absurd ih1 (by simp)
      | x :: rest =>
        rw [hq] at ih1 ih2 ih3
        have hx : x = nxt := by
          simp only [List.head?_cons, Option.some.injEq] at ih1
          exact ih1
        refine ⟨rfl, ?_, ?_⟩
        · rw [List.getLast?_cons_cons]
          exact ih2
        · rw [List.chain'_cons]
          refine ⟨?_, ih3⟩
          rw [hx]
          exact hnd
    · have hempty : daterange nxt d2 = [] := by
        rw [daterange_unfold, if_neg (by simp [h2])]
      rw [hempty]
      have h1 := (dateLe_iff_ordinal_le d1 d2).mp h
      have h3 : ¬ ordinal nxt ≤ ordinal d2 := fun hc =>
        h2 ((dateLe_iff_ordinal_le nxt d2).mpr hc)
      rw [ordinal_nextDay hnd] at h3
      have hd12 : d1 = d2 := ordinal_injective (by omega)
      subst hd12
      exact ⟨rfl, rfl, List.chain'_singleton d1⟩
termination_by ordinal d2 + 1 - ordinal d1
decreasing_by
  have h1 := (dateLe_iff_ordinal_le d1 d2).mp h
  have hx := ordinal_nextDay hnd
  omega

theorem daterange_mem_le {d1 d2 x : PyDate} (h : x ∈ daterange d1 d2) :
    dateLe d1 x = true := by
  rw [daterange_unfold] at h
  by_cases hle : dateLe d1 d2 = true
  · rw [if_pos hle] at h
    rcases hnd : nextDay d1 with _ | nxt
    · rw [hnd] at h
      replace h : x ∈ ([d1] : List PyDate) := h
      have hx : x = d1 := by simpa using h
      subst hx
      exact (dateLe_iff_ordinal_le x x).mpr (le_refl _)
    · rw [hnd] at h
      replace h : x ∈ d1 :: daterange nxt d2 := h
      rcases List.mem_cons.mp h with h2 | h2
      · subst h2
        exact (dateLe_iff_ordinal_le x x).mpr (le_refl _)
      · have hrec := daterange_mem_le h2
        have h1 := (dateLe_iff_ordinal_le nxt x).mp hrec
        rw [ordinal_nextDay hnd] at h1
        exact (dateLe_iff_ordinal_le d1 x).mpr (by omega)
  · rw [if_neg hle] at h
    exact absurd h (List.not_mem_nil x)
termination_by ordinal d2 + 1 - ordinal d1
decreasing_by
  have h1 := (dateLe_iff_ordinal_le d1 d2).mp hle
  have hx := ordinal_nextDay hnd
  omega

theorem daterange_pairwise_lt (d1 d2 : PyDate) :
    List.Pairwise (fun a b => dateLt a b = true) (daterange d1 d2) := by
  rw [daterange_unfold]
  by_cases hle : dateLe d1 d2 = true
  · rw [if_pos hle]
    rcases hnd : nextDay d1 with _ | nxt
    · show List.Pairwise (fun a b => dateLt a b = true) [d1]
      simp
    · show List.Pairwise (fun a b => dateLt a b = true) (d1 :: daterange nxt d2)
      refine List.pairwise_cons.mpr ⟨?_, daterange_pairwise_lt nxt d2⟩
      intro x hx
      have h1 := (dateLe_iff_ordinal_le nxt x).mp (daterange_mem_le hx)
      rw [ordinal_nextDay hnd] at h1
      exact (dateLt_iff_ordinal_lt d1 x).mpr (by omega)
  · rw [if_neg hle]
    exact List.Pairwise.nil
termination_by ordinal d2 + 1 - ordinal d1
decreasing_by
  have h1 := (dateLe_iff_ordinal_le d1 d2).mp hle
  have hx := ordinal_nextDay hnd
  omega

theorem daterange_nodup (d1 d2 : PyDate) : (daterange d1 d2).Nodup := by
  refine (daterange_pairwise_lt d1 d2).imp ?_
  intro a b hab
  intro heq
  subst heq
  have := (dateLt_iff_ordinal_lt a a).mp hab
  omega

theorem length_filter_not_countP {α : Type} (l : List α) (p : α → Bool) :
    (l.filter fun a => !p a).length = l.length - l.countP p := by
  induction l with
  | nil => rfl
  | cons a t ih =>
    have hcl : t.countP p ≤ t.length := t.countP_le_length p
    by_cases h : p a = true <;>
      simp [List.filter_cons, List.countP_cons, h, ih] <;> omega

theorem digitCharOf_mod (n : Nat) : digitCharOf n = digitCharOf (n % 10) := by
  unfold digitCharOf
  rw [show n % 10 % 10 = n % 10 by omega]

theorem digitVal_digitCharOf (n : Nat) : digitVal (digitCharOf n) = n % 10 := by
  rw [digitCharOf_mod]
  have h : n % 10 < 10 := by omega
  set k := n % 10 with hk
  interval_cases k <;> decide

theorem isDigitChar_digitCharOf (n : Nat) : isDigitChar (digitCharOf n) = true := by
  rw [digitCharOf_mod]
  have h : n % 10 < 10 := by omega
  set k := n % 10 with hk
  interval_cases k <;> decide

theorem isPySpace_digitCharOf (n : Nat) : isPySpace (digitCharOf n) = false := by
  rw [digitCharOf_mod]
  have h : n % 10 < 10 := by omega
  set k := n % 10 with hk
  interval_cases k <;> decide

theorem dropWhile_eq_self_of_forall {p : Char → Bool} {cs : List Char}
    (h : ∀ c ∈ cs, p c = false) : cs.dropWhile p = cs := by
  cases cs with
  | nil => rfl
  | cons a t =>
    rw [List.dropWhile_cons_of_neg]
    simp [h a (List.mem_cons_self a t)]

theorem pyStripL_eq_self {cs : List Char} (h : ∀ c ∈ cs, isPySpace c = false) :
    pyStripL cs = cs := by
  unfold pyStripL
  rw [dropWhile_eq_self_of_forall h]
  rw [dropWhile_eq_self_of_forall (by intro c hc; exact h c (List.mem_reverse.mp hc))]
  exact List.reverse_reverse cs

theorem pyStripL_isoformat (p : Ymd) :
    pyStripL (pad4 p.year ++ '-' :: (pad2 p.month ++ '-' :: pad2 p.day))
      = pad4 p.year ++ '-' :: (pad2 p.month ++ '-' :: pad2 p.day) := by
  apply pyStripL_eq_self
  intro c hc
  simp only [pad4, pad2, List.mem_append, List.mem_cons, List.not_mem_nil] at hc
  rcases hc with (h | h | h | h | h) | h | (h | h | h) | h | (h | h | h) <;>
    first
      | (subst h; exact isPySpace_digitCharOf _)
      | (subst h; decide)
      | exact absurd h (by simp)

theorem parse_isoformat_roundtrip (d : PyDate) (hy : d.val.year ≤ 9999) :
    parse_date_yyyy_mm_dd (isoformat d) = some d := by
  obtain ⟨p, hp⟩ := d
  have hv := hp
  simp only [validYmd, Bool.and_eq_true, decide_eq_true_eq] at hv
  obtain ⟨⟨⟨⟨⟨h1y, h2y⟩, h1m⟩, h2m⟩, h1d⟩, h2d⟩ := hv
  have hdim : daysInMonth p.year p.month ≤ 31 := by
    have : 1 ≤ p.month := h1m
    interval_cases h : p.month <;> simp [daysInMonth] <;> split <;> omega
  simp only [isoformat, isoformatYmd, parse_date_yyyy_mm_dd, pystrip]
  rw [pyStripL_isoformat]
  simp only [pad4, pad2, List.cons_append, List.nil_append]
  simp only [isDigitChar_digitCharOf, Bool.true_and, Bool.and_true]
  rw [if_pos (by simp)]
  simp only [digitVal_digitCharOf]
  have hy' : p.year ≤ 9999 := hy
  have hY : 1000 * (p.year / 1000 % 10) + 100 * (p.year / 100 % 10)
      + 10 * (p.year / 10 % 10) + p.year % 10 = p.year := by
    omega
  have hM : 10 * (p.month / 10 % 10) + p.month % 10 = p.month := by omega
  have hD : 10 * (p.day / 10 % 10) + p.day % 10 = p.day := by omega
  simp only [hY, hM, hD]
  rw [dif_pos hp]

theorem parse_some_matchesDateRe {s : String} {d : PyDate}
    (h : parse_date_yyyy_mm_dd s = some d) : matchesDateRe (pystrip s) = true := by
  unfold parse_date_yyyy_mm_dd at h
  split at h
  · rename_i heq
    split at h
    · rename_i hguard
      unfold matchesDateRe
      rw [heq]
      exact hguard
    · exact absurd h (by simp)
  · exact absurd h (by simp)

theorem insertLoop_map_event_date
    (gid b c t pp pl ad ex : String) (excl : List String) (nid : Nat) (ds : List PyDate) :
    (insertLoop gid b c t pp pl ad ex excl nid ds).map (fun r => r.event_date)
      = (ds.filter (fun d => !(excl.contains (isoformat d)))).map some := by
  induction ds generalizing nid with
  | nil => rfl
  | cons d rest ih =>
    rw [insertLoop, List.filter_cons]
    by_cases h : excl.contains (isoformat d) = true
    · rw [if_pos h]
      simp only [h, Bool.not_true, Bool.false_eq_true, if_false]
      exact ih nid
    · have h' : excl.contains (isoformat d) = false := Bool.eq_false_iff.mpr h
      rw [if_neg (by rw [h']; simp)]
      simp only [h', Bool.not_false, if_true, List.map_cons]
      rw [ih (nid + 1)]
      rfl

theorem insertLoop_mem
    {gid b c t pp pl ad ex : String} {excl : List String} {nid : Nat} {ds : List PyDate}
    {r : EventRow} (hr : r ∈ insertLoop gid b c t pp pl ad ex excl nid ds) :
    ∃ nid' d, d ∈ ds ∧ excl.contains (isoformat d) = false ∧
      r = mkEventRow nid' gid b c t pp pl ad ex d := by
  induction ds generalizing nid with
  | nil => exact absurd hr (List.not_mem_nil r)
  | cons d rest ih =>
    rw [insertLoop] at hr
    by_cases h : excl.contains (isoformat d) = true
    · rw [if_pos h] at hr
      obtain ⟨nid', d', hmem, hcon, heq⟩ := ih hr
      exact ⟨nid', d', List.mem_cons_of_mem d hmem, hcon, heq⟩
    · have h' : excl.contains (isoformat d) = false := Bool.eq_false_iff.mpr h
      rw [if_neg (by rw [h']; simp)] at hr
      rcases List.mem_cons.mp hr with h2 | h2
      · exact ⟨nid, d, List.mem_cons_self d rest, h', h2⟩
      · obtain ⟨nid', d', hmem, hcon, heq⟩ := ih h2
        exact ⟨nid', d', List.mem_cons_of_mem d hmem, hcon, heq⟩

theorem api_create_events_congr (uuid : String) (st : Store) (r1 r2 : CreateRequest)
    (h0 : getStr r1.start = getStr r2.start)
    (h1 : getStr r1.end_s = getStr r2.end_s)
    (h2 : getStr r1.business = getStr r2.business)
    (h3 : getStr r1.course = getStr r2.course)
    (h4 : getStr r1.time = getStr r2.time)
    (h5 : getStr r1.people = getStr r2.people)
    (h6 : getStr r1.place = getStr r2.place)
    (h7 : getStr r1.admin = getStr r2.admin)
    (h8 : getStr r1.excluded_dates = getStr r2.excluded_dates)
    (h9 : r1.group_id = r2.group_id) :
    api_create_events uuid st r1 = api_create_events uuid st r2 := by
  unfold api_create_events
  rw [h0, h1, h2, h3, h4, h5, h6, h7, h8, h9]

theorem rowLe_total (a b : EventRow) : (rowLe a b || rowLe b a) = true := by
  rcases hA : a.event_date with _ | x <;> rcases hB : b.event_date with _ | y <;>
    simp only [rowLe, hA, hB]
  · simp only [Bool.or_eq_true, decide_eq_true_eq]
    omega
  · simp
  · simp
  · by_cases hxy : x = y
    · subst hxy
      rcases Nat.le_total a.id b.id with hid | hid
      · simp [hid]
      · simp [hid]
    · rcases Nat.lt_trichotomy (ordinal x) (ordinal y) with h | h | h
      · have := (dateLt_iff_ordinal_lt x y).mpr h
        simp [this]
      · exact absurd (ordinal_injective h) hxy
      · have := (dateLt_iff_ordinal_lt y x).mpr h
        simp [this]

theorem rowLe_trans (a b c : EventRow) (h1 : rowLe a b = true) (h2 : rowLe b c = true) :
    rowLe a c = true := by
  rcases hA : a.event_date with _ | x <;> rcases hB : b.event_date with _ | y <;>
    rcases hC : c.event_date with _ | z
  · -- all dates null: ids are transitive
    simp only [rowLe, hA, hB, hC, decide_eq_true_eq] at h1 h2 ⊢
    omega
  · -- a null, b null, c present: rowLe b c is false
    simp only [rowLe, hB, hC] at h2
    exact absurd h2 (by simp)
  · -- a null, b present: rowLe a b is false
    simp only [rowLe, hA, hB] at h1
    exact absurd h1 (by simp)
  · simp only [rowLe, hA, hB] at h1
    exact absurd h1 (by simp)
  · -- a present, c null: goal is true
    simp only [rowLe, hA, hC]
  · -- b null, c present: rowLe b c is false
    simp only [rowLe, hB, hC] at h2
    exact absurd h2 (by simp)
  · simp only [rowLe, hA, hC]
  · -- all dates present
    simp only [rowLe, hA, hB, hC] at h1 h2 ⊢
    simp only [Bool.or_eq_true, Bool.and_eq_true, decide_eq_true_eq] at h1 h2 ⊢
    rcases h1 with h1 | ⟨hxy, hab⟩
    · rcases h2 with h2 | ⟨hyz, hbc⟩
      · exact Or.inl ((dateLt_iff_ordinal_lt x z).mpr
          (lt_trans ((dateLt_iff_ordinal_lt x y).mp h1) ((dateLt_iff_ordinal_lt y z).mp h2)))
      · subst hyz
        exact Or.inl h1
    · subst hxy
      rcases h2 with h2 | ⟨hyz, hbc⟩
      · exact Or.inl h2
      · subst hyz
        exact Or.inr ⟨rfl, by omega⟩

/-- Counterexample to C2 at `date.max`: for the range 9999-12-31..9999-12-31
the generator does yield its one day, but the following
`cur += timedelta(days=1)` raises OverflowError, so iterating `daterange` to
the end never terminates cleanly (e.g. `list(daterange(...))` raises). -/
theorem C2_overflow_at_date_max_counterexample :
    dateLe dateMax dateMax = true ∧
    daterange dateMax dateMax = [dateMax] ∧
    daterangeRaises dateMax dateMax = true := by
  decide

/-- C2 amended: for all dates `d1 <= d2`, the generator yields exactly
`(d2 - d1 in days) + 1` dates, strictly ascending, starting at `d1` and
ending at `d2`, with no gaps (each element is the next calendar day of its
predecessor) and no duplicates; the iteration then finishes cleanly if and
only if `d2` is not 9999-12-31 (`date.max`) — there the generator raises
OverflowError after its last yield. -/
theorem C2_daterange_inclusive_ascending (d1 d2 : PyDate) (h : dateLe d1 d2 = true) :
    (daterange d1 d2).length = (ordinal d2 - ordinal d1) + 1 ∧
    (daterange d1 d2).head? = some d1 ∧
    (daterange d1 d2).getLast? = some d2 ∧
    List.Chain' (fun a b => nextDay a = some b) (daterange d1 d2) ∧
    List.Pairwise (fun a b => dateLt a b = true) (daterange d1 d2) ∧
    (daterange d1 d2).Nodup ∧
    daterangeRaises d1 d2 = decide (d2 = dateMax) := by
  obtain ⟨h1, h2, h3⟩ := daterange_spec d1 d2 h
  have hord := (dateLe_iff_ordinal_le d1 d2).mp h
  refine ⟨?_, h1, h2, h3, daterange_pairwise_lt d1 d2, daterange_nodup d1 d2, ?_⟩
  · rw [daterange_length]
    omega
  · rw [daterangeRaises_iff, h]
    simp

/-- Witness for the amended C2 at the concrete range 2026-01-05 .. 2026-01-09. -/
theorem C2_daterange_inclusive_ascending_witness :
    dateLe jan5 jan9 = true ∧
    ((daterange jan5 jan9).length = (ordinal jan9 - ordinal jan5) + 1 ∧
     (daterange jan5 jan9).head? = some jan5 ∧
     (daterange jan5 jan9).getLast? = some jan9 ∧
     List.Chain' (fun a b => nextDay a = some b) (daterange jan5 jan9) ∧
     List.Pairwise (fun a b => dateLt a b = true) (daterange jan5 jan9) ∧
     (daterange jan5 jan9).Nodup ∧
     daterangeRaises jan5 jan9 = decide (jan9 = dateMax)) :=
  ⟨by decide, C2_daterange_inclusive_ascending jan5 jan9 (by decide)⟩

/-- C4: when both dates parse but the end precedes the start, the handler
applies the rejection policy consistently: it answers HTTP 400 with a fixed
message and leaves the store untouched (no partial result, no crash). -/
theorem C4_end_before_start_rejected (uuid : String) (st : Store) (req : CreateRequest)
    (sdt edt : PyDate)
    (hs : parse_date_yyyy_mm_dd (getStr req.start) = some sdt)
    (he : parse_date_yyyy_mm_dd (getStr req.end_s) = some edt)
    (hlt : dateLt edt sdt = true) :
    api_create_events uuid st req
      = (st, CreateResult.badRequest "종료일은 시작일보다 빠를 수 없습니다.") := by
  unfold api_create_events
  simp only [hs, he]
  rw [if_pos hlt]

/-- Witness for C4: registering 2026-01-10 .. 2026-01-08 is rejected. -/
theorem C4_end_before_start_rejected_witness :
    parse_date_yyyy_mm_dd (getStr reqBackwards.start) = some ⟨⟨2026, 1, 10⟩, by decide⟩ ∧
    parse_date_yyyy_mm_dd (getStr reqBackwards.end_s) = some jan8 ∧
    dateLt jan8 ⟨⟨2026, 1, 10⟩, by decide⟩ = true ∧
    api_create_events "u" emptyStore reqBackwards
      = (emptyStore, CreateResult.badRequest "종료일은 시작일보다 빠를 수 없습니다.") :=
  ⟨by decide, by decide, by decide,
    C4_end_before_start_rejected "u" emptyStore reqBackwards ⟨⟨2026, 1, 10⟩, by decide⟩ jan8
      (by decide) (by decide) (by decide)⟩

/-- C8: for every representable date (year at most 9999, as in Python),
`isoformat` renders the zero-padded `YYYY-MM-DD` shape and
`parse_date_yyyy_mm_dd` inverts it. -/
theorem C8_parse_format_roundtrip (d : PyDate) (hy : d.val.year ≤ 9999) :
    matchesDateRe (isoformat d) = true ∧
    parse_date_yyyy_mm_dd (isoformat d) = some d := by
  constructor
  · show matchesDateRe (isoformatYmd d.val) = true
    unfold matchesDateRe isoformatYmd
    simp only [pad4, pad2, List.cons_append, List.nil_append]
    simp [isDigitChar_digitCharOf]
  · exact parse_isoformat_roundtrip d hy

/-- Witness for C8 at 2026-01-05. -/
theorem C8_parse_format_roundtrip_witness :
    jan5.val.year ≤ 9999 ∧
    (matchesDateRe (isoformat jan5) = true ∧
     parse_date_yyyy_mm_dd (isoformat jan5) = some jan5) :=
  ⟨by decide, C8_parse_format_roundtrip jan5 (by decide)⟩

theorem api_create_events_of_parse (uuid : String) (st : Store) (req : CreateRequest)
    (sdt edt : PyDate)
    (hs : parse_date_yyyy_mm_dd (getStr req.start) = some sdt)
    (he : parse_date_yyyy_mm_dd (getStr req.end_s) = some edt)
    (hlt : dateLt edt sdt = false)
    (hnr : daterangeRaises sdt edt = false) :
    api_create_events uuid st req =
      ({ rows := st.rows ++ createdRows uuid st req sdt edt,
         nextId := st.nextId + (createdRows uuid st req sdt edt).length },
       CreateResult.ok (createdRows uuid st req sdt edt) (reqGroupId uuid req)) := by
  unfold api_create_events createdRows reqGroupId
  simp only [hs, he]
  rw [if_neg (by simp [hlt])]
  rw [if_neg (by simp [hnr])]

theorem api_create_events_ok_inv (uuid : String) (st : Store) (req : CreateRequest)
    {created : List EventRow} {gid : String}
    (hok : (api_create_events uuid st req).2 = CreateResult.ok created gid) :
    ∃ sdt edt, parse_date_yyyy_mm_dd (getStr req.start) = some sdt ∧
      parse_date_yyyy_mm_dd (getStr req.end_s) = some edt ∧
      dateLt edt sdt = false ∧
      created = createdRows uuid st req sdt edt ∧ gid = reqGroupId uuid req := by
  rcases hs : parse_date_yyyy_mm_dd (getStr req.start) with _ | sdt
  · unfold api_create_events at hok
    simp only [hs] at hok
    exact absurd hok (by simp)
  · rcases he : parse_date_yyyy_mm_dd (getStr req.end_s) with _ | edt
    · unfold api_create_events at hok
      simp only [hs, he] at hok
      exact absurd hok (by simp)
    · rcases hlt : dateLt edt sdt with _ | _
      · rcases hnr : daterangeRaises sdt edt with _ | _
        · have hok2 : CreateResult.ok (createdRows uuid st req sdt edt) (reqGroupId uuid req)
              = CreateResult.ok created gid := by
            rw [← hok, api_create_events_of_parse uuid st req sdt edt hs he hlt hnr]
          simp only [CreateResult.ok.injEq] at hok2
          exact ⟨sdt, edt, rfl, rfl, hlt, hok2.1.symm, hok2.2.symm⟩
        · unfold api_create_events at hok
          simp only [hs, he] at hok
          rw [if_neg (by simp [hlt])] at hok
          rw [if_pos hnr] at hok
          simp at hok
      · unfold api_create_events at hok
        simp only [hs, he] at hok
        rw [if_pos hlt] at hok
        simp at hok

/-- C7: every string accepted by `parse_date_yyyy_mm_dd` matches the
`YYYY-MM-DD` pattern (after stripping) and denotes a real calendar date;
`"2026-02-30"` matches the pattern yet is rejected; and a create request
whose start or end does not parse is answered with a 400 before any row is
constructed — the store is returned unchanged (all-or-nothing). -/
theorem C7_parse_validation_fail_fast :
    (∀ (s : String) (d : PyDate), parse_date_yyyy_mm_dd s = some d →
      matchesDateRe (pystrip s) = true ∧ validYmd d.val = true) ∧
    matchesDateRe "2026-02-30" = true ∧
    parse_date_yyyy_mm_dd "2026-02-30" = none ∧
    (∀ (uuid : String) (st : Store) (req : CreateRequest),
      parse_date_yyyy_mm_dd (getStr req.start) = none ∨
        parse_date_yyyy_mm_dd (getStr req.end_s) = none →
      api_create_events uuid st req
        = (st, CreateResult.badRequest "시작/종료일은 YYYY-MM-DD 형식으로 입력하세요.")) := by
  refine ⟨?_, by decide, by decide, ?_⟩
  · intro s d h
    exact ⟨parse_some_matchesDateRe h, d.property⟩
  · intro uuid st req h
    unfold api_create_events
    rcases hs : parse_date_yyyy_mm_dd (getStr req.start) with _ | sdt
    · rcases he : parse_date_yyyy_mm_dd (getStr req.end_s) with _ | edt <;> simp only [hs, he]
    · rcases he : parse_date_yyyy_mm_dd (getStr req.end_s) with _ | edt
      · simp only [hs, he]
      · exfalso
        rcases h with h' | h'
        · rw [hs] at h'
          exact absurd h' (by simp)
        · rw [he] at h'
          exact absurd h' (by simp)

/-- Witness for C7 at a parsed string and the 2026-02-30 rejection. -/
theorem C7_parse_validation_fail_fast_witness :
    parse_date_yyyy_mm_dd "2026-01-05" = some jan5 ∧
    (matchesDateRe (pystrip "2026-01-05") = true ∧ validYmd jan5.val = true) :=
  ⟨by decide, C7_parse_validation_fail_fast.1 "2026-01-05" jan5 (by decide)⟩

/-- C3: in every row a successful range registration produces, each
descriptive field is stored as the `normField` of its submitted value —
`none` whenever the trimmed value is empty, never an empty string — and a
whitespace-only field behaves exactly like an absent one (the whole handler
result is unchanged when a whitespace-only `course` is replaced by `none`). -/
theorem C3_blank_fields_stored_null (uuid : String) (st : Store) (req : CreateRequest)
    (created : List EventRow) (gid : String)
    (hok : (api_create_events uuid st req).2 = CreateResult.ok created gid) :
    (∀ r ∈ created,
      r.business = normField req.business ∧ r.course = normField req.course ∧
      r.time = normField req.time ∧ r.people = normField req.people ∧
      r.place = normField req.place ∧ r.admin = normField req.admin) ∧
    normField none = none ∧
    (∀ v : String, pystrip v = "" → normField (some v) = none) ∧
    (∀ v : String, req.course = some v → pystrip v = "" →
      api_create_events uuid st req
        = api_create_events uuid st { req with course := none }) := by
  refine ⟨?_, rfl, ?_, ?_⟩
  · intro r hr
    obtain ⟨sdt, edt, hs, he, hlt, hcr, hgid⟩ := api_create_events_ok_inv uuid st req hok
    subst hcr
    unfold createdRows at hr
    obtain ⟨nid', d, hmem, hcon, heq⟩ := insertLoop_mem hr
    subst heq
    simp [mkEventRow, normField, getStr]
  · intro v hv
    simp [normField, getStr, hv]
  · intro v hcv hv
    apply api_create_events_congr <;> try rfl
    rw [hcv]
    show pystrip v = pystrip ""
    rw [hv]
    rfl

/-- Witness for C3: the concrete registration (whitespace-only `course`)
stores `none` for every blank field in every created row. -/
theorem C3_blank_fields_stored_null_witness :
    (api_create_events "u" emptyStore reqJan5Jan9).2
      = CreateResult.ok (createdRows "u" emptyStore reqJan5Jan9 jan5 jan9)
          (reqGroupId "u" reqJan5Jan9) ∧
    (∀ r ∈ createdRows "u" emptyStore reqJan5Jan9 jan5 jan9,
      r.business = normField reqJan5Jan9.business ∧ r.course = normField reqJan5Jan9.course ∧
      r.time = normField reqJan5Jan9.time ∧ r.people = normField reqJan5Jan9.people ∧
      r.place = normField reqJan5Jan9.place ∧ r.admin = normField reqJan5Jan9.admin) :=
  ⟨by decide,
    (C3_blank_fields_stored_null "u" emptyStore reqJan5Jan9
      (createdRows "u" emptyStore reqJan5Jan9 jan5 jan9) (reqGroupId "u" reqJan5Jan9)
      (by decide)).1⟩

/-- Counterexample to C1 at `date.max`: 9999-12-31 parses, equals itself,
and nothing is excluded, yet registering the range 9999-12-31..9999-12-31
is answered with HTTP 500 ("date value out of range") and zero committed
rows — the day iterator's OverflowError escapes after the last insert and
the except-branch rolls back — instead of the success the claim requires. -/
theorem C1_overflow_at_date_max_counterexample :
    parse_date_yyyy_mm_dd "9999-12-31" = some dateMax ∧
    dateLe dateMax dateMax = true ∧
    api_create_events "u" emptyStore req9999
      = (emptyStore, CreateResult.serverError "date value out of range") := by
  decide

/-- C1 amended: a range registration whose dates parse with start <= end and
whose end is not 9999-12-31 (`date.max`, where the day iterator overflows
and the handler rolls back to a 500) succeeds (HTTP 200, even when
everything is excluded) and creates one row per non-excluded day of the
inclusive range: the rows' dates are exactly the filtered `daterange` in
ascending order, the count is the range length minus the number of excluded
in-range days, and no created row carries an excluded date. -/
theorem C1_range_registration_expansion (uuid : String) (st : Store) (req : CreateRequest)
    (sdt edt : PyDate)
    (hs : parse_date_yyyy_mm_dd (getStr req.start) = some sdt)
    (he : parse_date_yyyy_mm_dd (getStr req.end_s) = some edt)
    (hle : dateLe sdt edt = true)
    (hmax : edt ≠ dateMax) :
    (api_create_events uuid st req).2
      = CreateResult.ok (createdRows uuid st req sdt edt) (reqGroupId uuid req) ∧
    (createdRows uuid st req sdt edt).map (fun r => r.event_date)
      = ((daterange sdt edt).filter
          (fun d => !((normalize_excluded_dates (getStr req.excluded_dates)).contains
            (isoformat d)))).map some ∧
    (createdRows uuid st req sdt edt).length
      = (daterange sdt edt).length
        - (daterange sdt edt).countP
            (fun d => (normalize_excluded_dates (getStr req.excluded_dates)).contains
              (isoformat d)) ∧
    (∀ r ∈ createdRows uuid st req sdt edt, ∀ x, r.event_date = some x →
      (normalize_excluded_dates (getStr req.excluded_dates)).contains (isoformat x) = false) ∧
    List.Pairwise (fun r s => ∀ x y, r.event_date = some x → s.event_date = some y →
      dateLt x y = true) (createdRows uuid st req sdt edt) ∧
    ((∀ d ∈ daterange sdt edt,
        (normalize_excluded_dates (getStr req.excluded_dates)).contains (isoformat d) = true) →
      createdRows uuid st req sdt edt = []) := by
  have hlt : dateLt edt sdt = false := dateLt_eq_false_of_le hle
  have hnr : daterangeRaises sdt edt = false := daterangeRaises_eq_false_of_ne hmax
  have hmain := api_create_events_of_parse uuid st req sdt edt hs he hlt hnr
  have hmap : (createdRows uuid st req sdt edt).map (fun r => r.event_date)
      = ((daterange sdt edt).filter
          (fun d => !((normalize_excluded_dates (getStr req.excluded_dates)).contains
            (isoformat d)))).map some := by
    unfold createdRows
    exact insertLoop_map_event_date _ _ _ _ _ _ _ _ _ _ _
  refine ⟨by rw [hmain], hmap, ?_, ?_, ?_, ?_⟩
  · have h1 := congrArg List.length hmap
    simp only [List.length_map] at h1
    rw [h1, length_filter_not_countP]
  · intro r hr x hx
    unfold createdRows at hr
    obtain ⟨nid', d, hmem, hcon, heq⟩ := insertLoop_mem hr
    subst heq
    simp only [mkEventRow, Option.some.injEq] at hx
    subst hx
    exact hcon
  · have hpfil : List.Pairwise (fun a b => dateLt a b = true)
        ((daterange sdt edt).filter
          (fun d => !((normalize_excluded_dates (getStr req.excluded_dates)).contains
            (isoformat d)))) :=
      (daterange_pairwise_lt sdt edt).filter _
    have hpsome : List.Pairwise
        (fun (o1 o2 : Option PyDate) => ∀ x y, o1 = some x → o2 = some y →
          dateLt x y = true)
        (((daterange sdt edt).filter
          (fun d => !((normalize_excluded_dates (getStr req.excluded_dates)).contains
            (isoformat d)))).map some) := by
      rw [List.pairwise_map]
      refine hpfil.imp ?_
      intro a b hab x y hx hy
      injection hx with hx
      injection hy with hy
      subst hx
      subst hy
      exact hab
    rw [← hmap] at hpsome
    exact List.pairwise_map.mp hpsome
  · intro hall
    have hfil : ((daterange sdt edt).filter
        (fun d => !((normalize_excluded_dates (getStr req.excluded_dates)).contains
          (isoformat d)))) = [] := by
      rw [List.filter_eq_nil_iff]
      intro a ha
      rw [hall a ha]
      simp
    rw [hfil] at hmap
    simp only [List.map_nil] at hmap
    exact List.map_eq_nil_iff.mp hmap

/-- Witness for the amended C1: registering 2026-01-05..09 with 01-07
excluded succeeds. -/
theorem C1_range_registration_expansion_witness :
    dateLe jan5 jan9 = true ∧ jan9 ≠ dateMax ∧
    (api_create_events "u" emptyStore reqJan5Jan9).2
      = CreateResult.ok (createdRows "u" emptyStore reqJan5Jan9 jan5 jan9)
          (reqGroupId "u" reqJan5Jan9) :=
  ⟨by decide, by decide,
    (C1_range_registration_expansion "u" emptyStore reqJan5Jan9 jan5 jan9
      (by decide) (by decide) (by decide) (by decide)).1⟩

/-- Counterexample to C5: `api_delete_event` never checks the affected row
count.  After deleting id 5 (store now empty), deleting id 5 again still
answers `{"ok": true}` — an HTTP 200 success, not a NotFound; the handler's
result type has no 404 case at all. -/
theorem C5_second_delete_returns_success_counterexample :
    (api_delete_event stDelete 5).1.rows = [] ∧
    (api_delete_event (api_delete_event stDelete 5).1 5).2 = DeleteResult.ok := by
  decide

/-- C5 amended: deleting an id — present or absent — always reports success
and never crashes; deleting the same id a second time reports success again
and leaves the store exactly as the first deletion left it (the first
deletion's effect is unaffected). -/
theorem C5_delete_idempotent_success_amended (st : Store) (eid : Nat) :
    (api_delete_event st eid).2 = DeleteResult.ok ∧
    api_delete_event (api_delete_event st eid).1 eid
      = ((api_delete_event st eid).1, DeleteResult.ok) := by
  refine ⟨rfl, ?_⟩
  unfold api_delete_event
  simp [List.filter_filter]

/-- Counterexample to C6: `api_get_events` has no date-range parameter and
applies no date restriction.  With the store holding one row dated
2026-05-01, a listing returns that row even though its date lies outside the
inclusive range [2026-01-01, 2026-01-31]. -/
theorem C6_listing_ignores_date_range_counterexample :
    api_get_events stList "" = [rowMay] ∧
    rowMay.event_date = some may1 ∧
    dateLe jan1 may1 = true ∧
    dateLe may1 jan31 = false := by
  refine ⟨?_, by decide, by decide, by decide⟩
  unfold api_get_events
  rw [if_neg (fun h => h.1 rfl)]
  exact List.mergeSort_singleton rowMay

/-- C6 amended: the listing returns every stored row — restricted to a
single business only when the `business` argument is nonempty and not
"전체" — as a permutation sorted by `(event_date, id)` ascending (null dates
last); no date-range restriction exists. -/
theorem C6_listing_sorted_business_filter_amended (st : Store) (bq : String) :
    List.Pairwise (fun a b => rowLe a b = true) (api_get_events st bq) ∧
    (pystrip bq ≠ "" ∧ pystrip bq ≠ "전체" →
      (api_get_events st bq).Perm
        (st.rows.filter (fun r => r.business == some (pystrip bq)))) ∧
    (pystrip bq = "" ∨ pystrip bq = "전체" →
      (api_get_events st bq).Perm st.rows) := by
  unfold api_get_events
  by_cases hb : pystrip bq ≠ "" ∧ pystrip bq ≠ "전체"
  · rw [if_pos hb]
    refine ⟨List.sorted_mergeSort rowLe_trans rowLe_total _,
      fun _ => List.mergeSort_perm _ _, ?_⟩
    intro h
    exfalso
    rcases h with h | h
    · exact hb.1 h
    · exact hb.2 h
  · rw [if_neg hb]
    refine ⟨List.sorted_mergeSort rowLe_trans rowLe_total _, ?_,
      fun _ => List.mergeSort_perm _ _⟩
    intro h
    exact absurd h hb

/-- Witness for the amended C6: an unfiltered listing is a permutation of
the whole store. -/
theorem C6_listing_sorted_business_filter_amended_witness :
    (pystrip "" = "" ∨ pystrip "" = "전체") ∧
    (api_get_events stList "").Perm stList.rows :=
  ⟨Or.inl rfl, (C6_listing_sorted_business_filter_amended stList "").2.2 (Or.inl rfl)⟩

/-- C9: updating an existing row with a new `event_date` changes that row's
date (keeping its id, group and excluded-dates columns) and leaves every row
with a different id — in particular every sibling from the same range
registration — exactly as it was; the handler answers 200 with the updated
row. -/
theorem C9_update_mutates_single_row (st : Store) (eid : Nat) (req : UpdateRequest)
    (dd : PyDate) (old : EventRow)
    (hfind : st.rows.find? (fun r => r.id == eid) = some old)
    (hne : getStr req.event_date ≠ "")
    (hp : parse_date_yyyy_mm_dd (getStr req.event_date) = some dd) :
    (api_update_event st eid req).1.rows.length = st.rows.length ∧
    (∀ (i : Nat) (r : EventRow), st.rows[i]? = some r → r.id ≠ eid →
      (api_update_event st eid req).1.rows[i]? = some r) ∧
    (∀ (i : Nat) (r : EventRow), st.rows[i]? = some r → r.id = eid →
      ∃ r', (api_update_event st eid req).1.rows[i]? = some r' ∧
        r'.event_date = some dd ∧ r'.id = r.id ∧ r'.group_id = r.group_id ∧
        r'.excluded_dates = r.excluded_dates) ∧
    ∃ ev, (api_update_event st eid req).2 = UpdateResult.ok ev ∧ ev.id = old.id ∧
      ev.event_date = some dd := by
  have heq : api_update_event st eid req
      = ({ st with rows := st.rows.map (fun r =>
            if r.id == eid then
              { r with
                start_col := isoformat dd
                end_col := isoformat dd
                event_date := some dd
                business := normField req.business
                course := normField req.course
                time := normField req.time
                people := normField req.people
                place := normField req.place
                admin := normField req.admin }
            else r) },
        UpdateResult.ok
          { old with
            start_col := isoformat dd
            end_col := isoformat dd
            event_date := some dd
            business := normField req.business
            course := normField req.course
            time := normField req.time
            people := normField req.people
            place := normField req.place
            admin := normField req.admin }) := by
    have hres : resolveUpdateDates old (getStr req.event_date) (getStr req.start)
        (getStr req.end_s) = Except.ok (some dd, isoformat dd, isoformat dd) := by
      unfold resolveUpdateDates
      rw [if_pos hne]
      simp only [hp]
    unfold api_update_event
    simp only [hfind, hres]
  refine ⟨?_, ?_, ?_, ?_⟩
  · rw [heq]
    exact List.length_map st.rows _
  · intro i r hi hr
    rw [heq]
    simp only [List.getElem?_map, hi, Option.map_some']
    rw [if_neg (by simp [hr])]
  · intro i r hi hr
    rw [heq]
    refine ⟨{ r with
        start_col := isoformat dd
        end_col := isoformat dd
        event_date := some dd
        business := normField req.business
        course := normField req.course
        time := normField req.time
        people := normField req.people
        place := normField req.place
        admin := normField req.admin },
      ?_, rfl, rfl, rfl, rfl⟩
    simp only [List.getElem?_map, hi, Option.map_some']
    rw [if_pos (by simp [hr])]
  · rw [heq]
    exact ⟨_, rfl, rfl, rfl⟩

/-- Witness for C9: moving the 2026-01-05 sibling (id 1) to 2026-01-08 while
the id-2 sibling of the same group stays byte-identical. -/
theorem C9_update_mutates_single_row_witness :
    stUpdate.rows.find? (fun r => r.id == 1) = some rowSibA ∧
    getStr updReqDate.event_date ≠ "" ∧
    parse_date_yyyy_mm_dd (getStr updReqDate.event_date) = some jan8 ∧
    (api_update_event stUpdate 1 updReqDate).1.rows[1]? = some rowSibB ∧
    (∃ ev, (api_update_event stUpdate 1 updReqDate).2 = UpdateResult.ok ev ∧
      ev.id = rowSibA.id ∧ ev.event_date = some jan8) :=
  ⟨by decide, by decide, by decide,
    (C9_update_mutates_single_row stUpdate 1 updReqDate jan8 rowSibA
      (by decide) (by decide) (by decide)).2.1 1 rowSibB (by decide) (by decide),
    (C9_update_mutates_single_row stUpdate 1 updReqDate jan8 rowSibA
      (by decide) (by decide) (by decide)).2.2.2⟩

/-- C10: every successful update — whether or not it carries a new date —
overwrites all six descriptive fields of the target row from the request
alone: a field that is missing or trims to the empty string is stored as
`none`, clearing any previous value; the same holds for every stored row
with the target id. -/
theorem C10_update_overwrites_all_descriptive_fields (st : Store) (eid : Nat)
    (req : UpdateRequest) (ev : EventRow)
    (hok : (api_update_event st eid req).2 = UpdateResult.ok ev) :
    ev.business = normField req.business ∧ ev.course = normField req.course ∧
    ev.time = normField req.time ∧ ev.people = normField req.people ∧
    ev.place = normField req.place ∧ ev.admin = normField req.admin ∧
    (∀ (i : Nat) (r : EventRow), st.rows[i]? = some r → r.id = eid →
      ∃ r', (api_update_event st eid req).1.rows[i]? = some r' ∧
        r'.business = normField req.business ∧ r'.course = normField req.course ∧
        r'.time = normField req.time ∧ r'.people = normField req.people ∧
        r'.place = normField req.place ∧ r'.admin = normField req.admin) ∧
    normField none = none ∧ normField (some "   ") = none := by
  unfold api_update_event at hok ⊢
  rcases hfind : st.rows.find? (fun r => r.id == eid) with _ | old
  · simp only [hfind] at hok
    exact absurd hok (by simp)
  · simp only [hfind] at hok ⊢
    rcases hres : resolveUpdateDates old (getStr req.event_date) (getStr req.start)
        (getStr req.end_s) with e | ⟨ned, ns, ne⟩
    · simp only [hres] at hok
      exact absurd hok (by simp)
    · simp only [hres] at hok ⊢
      simp only [UpdateResult.ok.injEq] at hok
      subst hok
      refine ⟨rfl, rfl, rfl, rfl, rfl, rfl, ?_, rfl, by decide⟩
      intro i r hi hr
      refine ⟨{ r with
          start_col := ns
          end_col := ne
          event_date := ned
          business := normField req.business
          course := normField req.course
          time := normField req.time
          people := normField req.people
          place := normField req.place
          admin := normField req.admin }, ?_, rfl, rfl, rfl, rfl, rfl, rfl⟩
      simp only [List.getElem?_map, hi, Option.map_some']
      rw [if_pos (by simp [hr])]

/-- Witness for C10 on a date-carrying update (the UI's standard edit):
moving the id-1 row to 2026-01-08 with only `business` supplied overwrites
all six fields — `course` previously held a value and is cleared to null. -/
theorem C10_update_overwrites_all_descriptive_fields_witness :
    (api_update_event stUpdate 1 updReqDate).2 = UpdateResult.ok rowSibAUpdated ∧
    rowSibA.course = some "멀티캠퍼스" ∧
    (rowSibAUpdated.business = normField updReqDate.business ∧
     rowSibAUpdated.course = normField updReqDate.course ∧
     rowSibAUpdated.time = normField updReqDate.time ∧
     rowSibAUpdated.people = normField updReqDate.people ∧
     rowSibAUpdated.place = normField updReqDate.place ∧
     rowSibAUpdated.admin = normField updReqDate.admin ∧
     (∀ (i : Nat) (r : EventRow), stUpdate.rows[i]? = some r → r.id = 1 →
       ∃ r', (api_update_event stUpdate 1 updReqDate).1.rows[i]? = some r' ∧
         r'.business = normField updReqDate.business ∧
         r'.course = normField updReqDate.course ∧
         r'.time = normField updReqDate.time ∧
         r'.people = normField updReqDate.people ∧
         r'.place = normField updReqDate.place ∧
         r'.admin = normField updReqDate.admin) ∧
     normField none = none ∧ normField (some "   ") = none) :=
  ⟨by decide, by decide,
    C10_update_overwrites_all_descriptive_fields stUpdate 1 updReqDate rowSibAUpdated
      (by decide)⟩
